import Mathlib

/-!
Verification development for the AES-256 reference implementation
(`src/rtl/python/aes256.py`): a shallow embedding of the cipher core
(GF(2^8) multiplication, state transforms, key schedule, block cipher,
PKCS#7 padding and the ECB driver) as executable Lean definitions, with
theorems settling the specified properties.

Byte sequences are modelled as `List Nat` with entries below 256; the
4×4 cipher state is a `List (List Nat)` of four rows of four bytes, as in
the source.  Fallible operations (Python `ValueError` / `IndexError`)
return `Option`.
-/

namespace AES256

/-- S-box for SubBytes (`SBOX` in the source). -/
def SBOX : List Nat := [
  0x63, 0x7c, 0x77, 0x7b, 0xf2, 0x6b, 0x6f, 0xc5, 0x30, 0x01, 0x67, 0x2b, 0xfe, 0xd7, 0xab, 0x76,
  0xca, 0x82, 0xc9, 0x7d, 0xfa, 0x59, 0x47, 0xf0, 0xad, 0xd4, 0xa2, 0xaf, 0x9c, 0xa4, 0x72, 0xc0,
  0xb7, 0xfd, 0x93, 0x26, 0x36, 0x3f, 0xf7, 0xcc, 0x34, 0xa5, 0xe5, 0xf1, 0x71, 0xd8, 0x31, 0x15,
  0x04, 0xc7, 0x23, 0xc3, 0x18, 0x96, 0x05, 0x9a, 0x07, 0x12, 0x80, 0xe2, 0xeb, 0x27, 0xb2, 0x75,
  0x09, 0x83, 0x2c, 0x1a, 0x1b, 0x6e, 0x5a, 0xa0, 0x52, 0x3b, 0xd6, 0xb3, 0x29, 0xe3, 0x2f, 0x84,
  0x53, 0xd1, 0x00, 0xed, 0x20, 0xfc, 0xb1, 0x5b, 0x6a, 0xcb, 0xbe, 0x39, 0x4a, 0x4c, 0x58, 0xcf,
  0xd0, 0xef, 0xaa, 0xfb, 0x43, 0x4d, 0x33, 0x85, 0x45, 0xf9, 0x02, 0x7f, 0x50, 0x3c, 0x9f, 0xa8,
  0x51, 0xa3, 0x40, 0x8f, 0x92, 0x9d, 0x38, 0xf5, 0xbc, 0xb6, 0xda, 0x21, 0x10, 0xff, 0xf3, 0xd2,
  0xcd, 0x0c, 0x13, 0xec, 0x5f, 0x97, 0x44, 0x17, 0xc4, 0xa7, 0x7e, 0x3d, 0x64, 0x5d, 0x19, 0x73,
  0x60, 0x81, 0x4f, 0xdc, 0x22, 0x2a, 0x90, 0x88, 0x46, 0xee, 0xb8, 0x14, 0xde, 0x5e, 0x0b, 0xdb,
  0xe0, 0x32, 0x3a, 0x0a, 0x49, 0x06, 0x24, 0x5c, 0xc2, 0xd3, 0xac, 0x62, 0x91, 0x95, 0xe4, 0x79,
  0xe7, 0xc8, 0x37, 0x6d, 0x8d, 0xd5, 0x4e, 0xa9, 0x6c, 0x56, 0xf4, 0xea, 0x65, 0x7a, 0xae, 0x08,
  0xba, 0x78, 0x25, 0x2e, 0x1c, 0xa6, 0xb4, 0xc6, 0xe8, 0xdd, 0x74, 0x1f, 0x4b, 0xbd, 0x8b, 0x8a,
  0x70, 0x3e, 0xb5, 0x66, 0x48, 0x03, 0xf6, 0x0e, 0x61, 0x35, 0x57, 0xb9, 0x86, 0xc1, 0x1d, 0x9e,
  0xe1, 0xf8, 0x98, 0x11, 0x69, 0xd9, 0x8e, 0x94, 0x9b, 0x1e, 0x87, 0xe9, 0xce, 0x55, 0x28, 0xdf,
  0x8c, 0xa1, 0x89, 0x0d, 0xbf, 0xe6, 0x42, 0x68, 0x41, 0x99, 0x2d, 0x0f, 0xb0, 0x54, 0xbb, 0x16]

/-- Inverse S-box (`INV_SBOX` in the source). -/
def INV_SBOX : List Nat := [
  0x52, 0x09, 0x6a, 0xd5, 0x30, 0x36, 0xa5, 0x38, 0xbf, 0x40, 0xa3, 0x9e, 0x81, 0xf3, 0xd7, 0xfb,
  0x7c, 0xe3, 0x39, 0x82, 0x9b, 0x2f, 0xff, 0x87, 0x34, 0x8e, 0x43, 0x44, 0xc4, 0xde, 0xe9, 0xcb,
  0x54, 0x7b, 0x94, 0x32, 0xa6, 0xc2, 0x23, 0x3d, 0xee, 0x4c, 0x95, 0x0b, 0x42, 0xfa, 0xc3, 0x4e,
  0x08, 0x2e, 0xa1, 0x66, 0x28, 0xd9, 0x24, 0xb2, 0x76, 0x5b, 0xa2, 0x49, 0x6d, 0x8b, 0xd1, 0x25,
  0x72, 0xf8, 0xf6, 0x64, 0x86, 0x68, 0x98, 0x16, 0xd4, 0xa4, 0x5c, 0xcc, 0x5d, 0x65, 0xb6, 0x92,
  0x6c, 0x70, 0x48, 0x50, 0xfd, 0xed, 0xb9, 0xda, 0x5e, 0x15, 0x46, 0x57, 0xa7, 0x8d, 0x9d, 0x84,
  0x90, 0xd8, 0xab, 0x00, 0x8c, 0xbc, 0xd3, 0x0a, 0xf7, 0xe4, 0x58, 0x05, 0xb8, 0xb3, 0x45, 0x06,
  0xd0, 0x2c, 0x1e, 0x8f, 0xca, 0x3f, 0x0f, 0x02, 0xc1, 0xaf, 0xbd, 0x03, 0x01, 0x13, 0x8a, 0x6b,
  0x3a, 0x91, 0x11, 0x41, 0x4f, 0x67, 0xdc, 0xea, 0x97, 0xf2, 0xcf, 0xce, 0xf0, 0xb4, 0xe6, 0x73,
  0x96, 0xac, 0x74, 0x22, 0xe7, 0xad, 0x35, 0x85, 0xe2, 0xf9, 0x37, 0xe8, 0x1c, 0x75, 0xdf, 0x6e,
  0x47, 0xf1, 0x1a, 0x71, 0x1d, 0x29, 0xc5, 0x89, 0x6f, 0xb7, 0x62, 0x0e, 0xaa, 0x18, 0xbe, 0x1b,
  0xfc, 0x56, 0x3e, 0x4b, 0xc6, 0xd2, 0x79, 0x20, 0x9a, 0xdb, 0xc0, 0xfe, 0x78, 0xcd, 0x5a, 0xf4,
  0x1f, 0xdd, 0xa8, 0x33, 0x88, 0x07, 0xc7, 0x31, 0xb1, 0x12, 0x10, 0x59, 0x27, 0x80, 0xec, 0x5f,
  0x60, 0x51, 0x7f, 0xa9, 0x19, 0xb5, 0x4a, 0x0d, 0x2d, 0xe5, 0x7a, 0x9f, 0x93, 0xc9, 0x9c, 0xef,
  0xa0, 0xe0, 0x3b, 0x4d, 0xae, 0x2a, 0xf5, 0xb0, 0xc8, 0xeb, 0xbb, 0x3c, 0x83, 0x53, 0x99, 0x61,
  0x17, 0x2b, 0x04, 0x7e, 0xba, 0x77, 0xd6, 0x26, 0xe1, 0x69, 0x14, 0x63, 0x55, 0x21, 0x0c, 0x7d]

/-- Round constants for the AES-256 key expansion (`RCON` in the source). -/
def RCON : List Nat := [0x01, 0x02, 0x04, 0x08, 0x10, 0x20, 0x40, 0x80, 0x1b, 0x36, 0x6c, 0xd8, 0xab, 0x4d]

/-- One iteration's update of the multiplier `a` inside `gmul`: record the high
bit, shift left, and XOR `0x1b` when the pre-shift high bit was set.  As in
the Python source, `a` is not masked to a byte, so bits at positions ≥ 8 may
accumulate; only the final `&&& 0xFF` in `gmul` discards them. -/
def gmulShift (a : Nat) : Nat :=
  let hi := a &&& 0x80
  let a1 := a <<< 1
  if hi ≠ 0 then a1 ^^^ 0x1b else a1

/-- The 8-iteration shift-and-XOR loop of `gmul`, with accumulator `p`. -/
def gmulLoop : Nat → Nat → Nat → Nat → Nat
  | 0, p, _, _ => p
  | n + 1, p, a, b =>
      gmulLoop n (if b &&& 1 ≠ 0 then p ^^^ a else p) (gmulShift a) (b >>> 1)

/-- GF(2^8) multiplication, translated from `gmul` in the source. -/
def gmul (a b : Nat) : Nat := gmulLoop 8 0 a b &&& 0xFF

/-- SubBytes: replace every state byte by its S-box entry (source `sub_bytes`). -/
def sub_bytes (state : List (List Nat)) : List (List Nat) :=
  state.map (fun row => row.map (fun b => SBOX.getD b 0))

/-- Inverse SubBytes (source `inv_sub_bytes`). -/
def inv_sub_bytes (state : List (List Nat)) : List (List Nat) :=
  state.map (fun row => row.map (fun b => INV_SBOX.getD b 0))

/-- ShiftRows: row `r` rotated left by `r` (source `shift_rows`,
`state[r] = state[r][r:] + state[r][:r]`). -/
def shift_rows (state : List (List Nat)) : List (List Nat) :=
  match state with
  | [r0, r1, r2, r3] =>
      [r0, r1.drop 1 ++ r1.take 1, r2.drop 2 ++ r2.take 2, r3.drop 3 ++ r3.take 3]
  | s => s

/-- Inverse ShiftRows: row `r` rotated right by `r` (source `inv_shift_rows`,
`state[r] = state[r][-r:] + state[r][:-r]`, i.e. the last `r` elements moved
to the front). -/
def inv_shift_rows (state : List (List Nat)) : List (List Nat) :=
  match state with
  | [r0, r1, r2, r3] =>
      [r0, r1.drop (r1.length - 1) ++ r1.take (r1.length - 1),
       r2.drop (r2.length - 2) ++ r2.take (r2.length - 2),
       r3.drop (r3.length - 3) ++ r3.take (r3.length - 3)]
  | s => s

/-- MixColumns (source `mix_columns`): every column `(a, b, c, d)` is replaced
by its product with the circulant matrix with first row `{2, 3, 1, 1}`. -/
def mix_columns (state : List (List Nat)) : List (List Nat) :=
  match state with
  | [[a0, a1, a2, a3], [b0, b1, b2, b3], [c0, c1, c2, c3], [d0, d1, d2, d3]] =>
      [[gmul a0 2 ^^^ gmul b0 3 ^^^ c0 ^^^ d0, gmul a1 2 ^^^ gmul b1 3 ^^^ c1 ^^^ d1,
        gmul a2 2 ^^^ gmul b2 3 ^^^ c2 ^^^ d2, gmul a3 2 ^^^ gmul b3 3 ^^^ c3 ^^^ d3],
       [a0 ^^^ gmul b0 2 ^^^ gmul c0 3 ^^^ d0, a1 ^^^ gmul b1 2 ^^^ gmul c1 3 ^^^ d1,
        a2 ^^^ gmul b2 2 ^^^ gmul c2 3 ^^^ d2, a3 ^^^ gmul b3 2 ^^^ gmul c3 3 ^^^ d3],
       [a0 ^^^ b0 ^^^ gmul c0 2 ^^^ gmul d0 3, a1 ^^^ b1 ^^^ gmul c1 2 ^^^ gmul d1 3,
        a2 ^^^ b2 ^^^ gmul c2 2 ^^^ gmul d2 3, a3 ^^^ b3 ^^^ gmul c3 2 ^^^ gmul d3 3],
       [gmul a0 3 ^^^ b0 ^^^ c0 ^^^ gmul d0 2, gmul a1 3 ^^^ b1 ^^^ c1 ^^^ gmul d1 2,
        gmul a2 3 ^^^ b2 ^^^ c2 ^^^ gmul d2 2, gmul a3 3 ^^^ b3 ^^^ c3 ^^^ gmul d3 2]]
  | s => s

/-- Inverse MixColumns (source `inv_mix_columns`): columns multiplied by the
circulant matrix with first row `{14, 11, 13, 9}`. -/
def inv_mix_columns (state : List (List Nat)) : List (List Nat) :=
  match state with
  | [[a0, a1, a2, a3], [b0, b1, b2, b3], [c0, c1, c2, c3], [d0, d1, d2, d3]] =>
      [[gmul a0 14 ^^^ gmul b0 11 ^^^ gmul c0 13 ^^^ gmul d0 9,
        gmul a1 14 ^^^ gmul b1 11 ^^^ gmul c1 13 ^^^ gmul d1 9,
        gmul a2 14 ^^^ gmul b2 11 ^^^ gmul c2 13 ^^^ gmul d2 9,
        gmul a3 14 ^^^ gmul b3 11 ^^^ gmul c3 13 ^^^ gmul d3 9],
       [gmul a0 9 ^^^ gmul b0 14 ^^^ gmul c0 11 ^^^ gmul d0 13,
        gmul a1 9 ^^^ gmul b1 14 ^^^ gmul c1 11 ^^^ gmul d1 13,
        gmul a2 9 ^^^ gmul b2 14 ^^^ gmul c2 11 ^^^ gmul d2 13,
        gmul a3 9 ^^^ gmul b3 14 ^^^ gmul c3 11 ^^^ gmul d3 13],
       [gmul a0 13 ^^^ gmul b0 9 ^^^ gmul c0 14 ^^^ gmul d0 11,
        gmul a1 13 ^^^ gmul b1 9 ^^^ gmul c1 14 ^^^ gmul d1 11,
        gmul a2 13 ^^^ gmul b2 9 ^^^ gmul c2 14 ^^^ gmul d2 11,
        gmul a3 13 ^^^ gmul b3 9 ^^^ gmul c3 14 ^^^ gmul d3 11],
       [gmul a0 11 ^^^ gmul b0 13 ^^^ gmul c0 9 ^^^ gmul d0 14,
        gmul a1 11 ^^^ gmul b1 13 ^^^ gmul c1 9 ^^^ gmul d1 14,
        gmul a2 11 ^^^ gmul b2 13 ^^^ gmul c2 9 ^^^ gmul d2 14,
        gmul a3 11 ^^^ gmul b3 13 ^^^ gmul c3 9 ^^^ gmul d3 14]]
  | s => s

/-- AddRoundKey: XOR the state element-wise with a round key (source
`add_round_key`). -/
def add_round_key (state round_key : List (List Nat)) : List (List Nat) :=
  state.zipWith (fun r kr => r.zipWith (fun x y => x ^^^ y) kr) round_key

/-- Rotate a key-schedule word left by one byte (`temp[1:] + temp[:1]`). -/
def rotWordLeft (w : List Nat) : List Nat := w.drop 1 ++ w.take 1

/-- Substitute every byte of a key-schedule word through the S-box. -/
def subWord (w : List Nat) : List Nat := w.map (fun b => SBOX.getD b 0)

/-- XOR the first byte of a word with the `r`-th (1-indexed) round constant
(`temp[0] ^= RCON[i//8 - 1]` with `r = i/8`). -/
def rconXorHead (w : List Nat) (r : Nat) : List Nat :=
  match w with
  | t0 :: rest => (t0 ^^^ RCON.getD (r - 1) 0) :: rest
  | [] => []

/-- XOR two key-schedule words component-wise
(`[key_words[i-8][j] ^ temp[j] for j in range(4)]`). -/
def wordXor (u v : List Nat) : List Nat :=
  (List.range 4).map (fun j => u.getD j 0 ^^^ v.getD j 0)

/-- The transform applied to the previous word at index `i` of the key
schedule: RotWord + SubWord + Rcon at multiples of 8, SubWord alone when
`i % 8 = 4`, identity otherwise. -/
def scheduleTemp (i : Nat) (prev : List Nat) : List Nat :=
  if i % 8 = 0 then rconXorHead (subWord (rotWordLeft prev)) (i / 8)
  else if i % 8 = 4 then subWord prev
  else prev

/-- The word appended at index `i` (where `ws` holds words `0 .. i-1`):
word `i-8` XORed with the transformed word `i-1`. -/
def nextWord (ws : List (List Nat)) (i : Nat) : List Nat :=
  wordXor (ws.getD (i - 8) []) (scheduleTemp i (ws.getD (i - 1) []))

/-- The first `n` words of the AES-256 key schedule: words `0..7` are the key
bytes four at a time, each later word is produced by `nextWord`.  The source's
`key_words` list after its expansion loop is `keyWords key 60`. -/
def keyWords (key : List Nat) : Nat → List (List Nat)
  | 0 => []
  | n + 1 =>
      let ws := keyWords key n
      if n < 8 then
        ws ++ [[key.getD (4*n) 0, key.getD (4*n+1) 0, key.getD (4*n+2) 0, key.getD (4*n+3) 0]]
      else ws ++ [nextWord ws n]

/-- Key expansion (source `key_expansion`): 15 round keys, round key `i` having
`key_words[4*i + j]` as its column `j` (`round_key[k][j] = word[k]`). -/
def key_expansion (key : List Nat) : List (List (List Nat)) :=
  let ws := keyWords key 60
  (List.range 15).map (fun i =>
    (List.range 4).map (fun r =>
      (List.range 4).map (fun j => (ws.getD (4*i + j) []).getD r 0)))

/-- Convert 16 bytes into the 4×4 state, column-major
(source `bytes_to_state`: `state[j][i] = data[i*4 + j]`). -/
def bytes_to_state (data : List Nat) : List (List Nat) :=
  match data with
  | [x0, x1, x2, x3, x4, x5, x6, x7, x8, x9, x10, x11, x12, x13, x14, x15] =>
      [[x0, x4, x8, x12], [x1, x5, x9, x13], [x2, x6, x10, x14], [x3, x7, x11, x15]]
  | _ => []

/-- Serialize the 4×4 state back to 16 bytes, column-major
(source `state_to_bytes`). -/
def state_to_bytes (state : List (List Nat)) : List Nat :=
  match state with
  | [[a0, a1, a2, a3], [b0, b1, b2, b3], [c0, c1, c2, c3], [d0, d1, d2, d3]] =>
      [a0, b0, c0, d0, a1, b1, c1, d1, a2, b2, c2, d2, a3, b3, c3, d3]
  | _ => []

/-- One middle encryption round (rounds 1–13 of `aes256_encrypt_block`). -/
def encRound (rks : List (List (List Nat))) (s : List (List Nat)) (r : Nat) : List (List Nat) :=
  add_round_key (mix_columns (shift_rows (sub_bytes s))) (rks.getD r [])

/-- One middle decryption round (rounds 13–1 of `aes256_decrypt_block`). -/
def decRound (rks : List (List (List Nat))) (s : List (List Nat)) (r : Nat) : List (List Nat) :=
  inv_mix_columns (add_round_key (inv_sub_bytes (inv_shift_rows s)) (rks.getD r []))

/-- The middle encryption rounds: starting state folded through rounds
`1 .. n` (the source's `for round_num in range(1, 14)` loop, with `n = 13`). -/
def encN (rks : List (List (List Nat))) (n : Nat) (s0 : List (List Nat)) : List (List Nat) :=
  (List.range n).foldl (fun s r => encRound rks s (r + 1)) s0

/-- The middle decryption rounds: starting state folded through rounds
`13, 12, …` (the source's `for round_num in range(13, 0, -1)` loop). -/
def decN (rks : List (List (List Nat))) (n : Nat) (t0 : List (List Nat)) : List (List Nat) :=
  (List.range n).foldl (fun s r => decRound rks s (13 - r)) t0

/-- Encrypt one 16-byte block under a 32-byte key (source
`aes256_encrypt_block`): initial AddRoundKey, 13 middle rounds, final round
without MixColumns.  The Python `ValueError` on a wrong-sized block or key is
modelled as `none`. -/
def aes256_encrypt_block (plaintext key : List Nat) : Option (List Nat) :=
  if plaintext.length = 16 then
    if key.length = 32 then
      let rks := key_expansion key
      let s0 := add_round_key (bytes_to_state plaintext) (rks.getD 0 [])
      let s1 := encN rks 13 s0
      some (state_to_bytes (add_round_key (shift_rows (sub_bytes s1)) (rks.getD 14 [])))
    else none
  else none

/-- Decrypt one 16-byte block under a 32-byte key (source
`aes256_decrypt_block`): AddRoundKey with the last round key, 13 middle
inverse rounds, final inverse round without InvMixColumns.  The Python
`ValueError` on a wrong-sized block or key is modelled as `none`. -/
def aes256_decrypt_block (ciphertext key : List Nat) : Option (List Nat) :=
  if ciphertext.length = 16 then
    if key.length = 32 then
      let rks := key_expansion key
      let s0 := add_round_key (bytes_to_state ciphertext) (rks.getD 14 [])
      let s1 := decN rks 13 s0
      some (state_to_bytes (add_round_key (inv_sub_bytes (inv_shift_rows s1)) (rks.getD 0 [])))
    else none
  else none

/-- PKCS#7 padding with block size 16 (source `pkcs7_pad`):
append `n` bytes of value `n` where `n = 16 - len % 16`. -/
def pkcs7_pad (data : List Nat) : List Nat :=
  let padding_len := 16 - data.length % 16
  data ++ List.replicate padding_len padding_len

/-- PKCS#7 unpadding (source `pkcs7_unpad`): read the last byte `n` and
return `data[:-n]` in Python slice semantics — everything for `n = 0`
stripped down to the empty list (`data[:0]`), otherwise the first
`len - n` bytes.  The `IndexError` on empty input is modelled as `none`. -/
def pkcs7_unpad (data : List Nat) : Option (List Nat) :=
  match data.getLast? with
  | none => none
  | some n => some (if n = 0 then [] else data.take (data.length - n))

/-- The per-block loop of `aes256_encrypt`: encrypt successive 16-byte chunks
and concatenate.  `fuel` bounds the recursion; any `fuel ≥ data.length`
reproduces the Python loop over `range(0, len, 16)`. -/
def ecbEncryptChunks (key : List Nat) : Nat → List Nat → Option (List Nat)
  | _, [] => some []
  | 0, _ :: _ => none
  | fuel + 1, d =>
      match aes256_encrypt_block (d.take 16) key, ecbEncryptChunks key fuel (d.drop 16) with
      | some b, some rest => some (b ++ rest)
      | _, _ => none

/-- The per-block loop of `aes256_decrypt`: decrypt successive 16-byte chunks
and concatenate. -/
def ecbDecryptChunks (key : List Nat) : Nat → List Nat → Option (List Nat)
  | _, [] => some []
  | 0, _ :: _ => none
  | fuel + 1, d =>
      match aes256_decrypt_block (d.take 16) key, ecbDecryptChunks key fuel (d.drop 16) with
      | some b, some rest => some (b ++ rest)
      | _, _ => none

/-- ECB encryption of an arbitrary-length byte sequence (source
`aes256_encrypt`): check the key length, PKCS#7-pad, then encrypt each
16-byte block independently. -/
def aes256_encrypt (plaintext key : List Nat) : Option (List Nat) :=
  if key.length = 32 then
    let padded := pkcs7_pad plaintext
    ecbEncryptChunks key padded.length padded
  else none

/-- ECB decryption (source `aes256_decrypt`): check the key length, decrypt
each 16-byte chunk independently, then unpad. -/
def aes256_decrypt (ciphertext key : List Nat) : Option (List Nat) :=
  if key.length = 32 then
    match ecbDecryptChunks key ciphertext.length ciphertext with
    | some pt => pkcs7_unpad pt
    | none => none
  else none

/-! ### A mathematical reference for GF(2^8) multiplication

`gfMulRef` is the product in the field defined by the AES irreducible
polynomial `x^8 + x^4 + x^3 + x + 1` (bit pattern `0x11b`), written per the
spec's words: the carry-less (polynomial) product of the two bytes, reduced
by polynomial long division — eliminating the bits of degree 15 down to 8
by XORing in the correspondingly shifted modulus. -/

/-- Carry-less (GF(2)[x]) multiplication of `a` by the low `n` bits of `b`. -/
def clmulAux : Nat → Nat → Nat → Nat
  | 0, _, _ => 0
  | n + 1, a, b => (if b &&& 1 ≠ 0 then a else 0) ^^^ clmulAux n (a <<< 1) (b >>> 1)

/-- Carry-less product of two bytes (degree ≤ 14, so a value below `2^16`). -/
def clmul (a b : Nat) : Nat := clmulAux 8 a b

/-- One long-division step: clear bit `i + 8` by XORing the modulus `0x11b`
shifted left by `i`. -/
def polyReduceStep (x i : Nat) : Nat := if x.testBit (i + 8) then x ^^^ (0x11b <<< i) else x

/-- Remainder of a polynomial of degree ≤ 15 modulo `x^8 + x^4 + x^3 + x + 1`. -/
def polyMod16 (x : Nat) : Nat :=
  polyReduceStep (polyReduceStep (polyReduceStep (polyReduceStep (polyReduceStep
    (polyReduceStep (polyReduceStep (polyReduceStep x 7) 6) 5) 4) 3) 2) 1) 0

/-- The product of two bytes in GF(2^8) with the AES reducing polynomial. -/
def gfMulRef (a b : Nat) : Nat := polyMod16 (clmul a b)

/-! ### XOR-linearity of `gmul` and `gfMulRef` in the multiplicand -/

lemma xor_left_comm (a b c : Nat) : a ^^^ (b ^^^ c) = b ^^^ (a ^^^ c) := by
  rw [← Nat.xor_assoc, Nat.xor_comm a b, Nat.xor_assoc]

lemma shiftLeft_xor_dist (x y n : Nat) : (x ^^^ y) <<< n = x <<< n ^^^ y <<< n := by
  apply Nat.eq_of_testBit_eq
  intro i
  by_cases h : n ≤ i <;>
    simp [Nat.testBit_shiftLeft, Nat.testBit_xor, h, ge_iff_le]

lemma and_080_ne (a : Nat) : (a &&& 0x80 ≠ 0) ↔ a.testBit 7 = true := by
  have h : a &&& 0x80 = (a.testBit 7).toNat * 2 ^ 7 := by
    have := Nat.and_two_pow a 7
    norm_num at this ⊢
    exact this
  rw [h]
  cases ha : a.testBit 7 <;> simp

lemma gmulShift_xor (x y : Nat) : gmulShift (x ^^^ y) = gmulShift x ^^^ gmulShift y := by
  simp only [gmulShift]
  have hx' := and_080_ne x
  have hy' := and_080_ne y
  have hxy' := and_080_ne (x ^^^ y)
  rw [Nat.testBit_xor] at hxy'
  cases hx : x.testBit 7 <;> cases hy : y.testBit 7 <;>
    simp only [hx, hy, Bool.xor_false, Bool.xor_true, Bool.not_true, Bool.not_false] at hx' hy' hxy' <;>
    simp [hx', hy', hxy', shiftLeft_xor_dist, Nat.xor_assoc, Nat.xor_comm, xor_left_comm]

lemma gmulLoop_offset (n : Nat) : ∀ p a b, gmulLoop n p a b = p ^^^ gmulLoop n 0 a b := by
  induction n with
  | zero => intro p a b; simp [gmulLoop]
  | succ n ih =>
      intro p a b
      simp only [gmulLoop]
      rw [ih, ih (if b &&& 1 ≠ 0 then 0 ^^^ a else 0)]
      by_cases hb : b % 2 = 1 <;> simp [hb, Nat.xor_assoc]

lemma gmulLoop_linear (n : Nat) :
    ∀ x y b, gmulLoop n 0 (x ^^^ y) b = gmulLoop n 0 x b ^^^ gmulLoop n 0 y b := by
  induction n with
  | zero => intro x y b; simp [gmulLoop]
  | succ n ih =>
      intro x y b
      simp only [gmulLoop]
      rw [gmulLoop_offset n (if b &&& 1 ≠ 0 then 0 ^^^ (x ^^^ y) else 0),
          gmulLoop_offset n (if b &&& 1 ≠ 0 then 0 ^^^ x else 0),
          gmulLoop_offset n (if b &&& 1 ≠ 0 then 0 ^^^ y else 0),
          gmulShift_xor, ih]
      by_cases hb : b % 2 = 1 <;>
        simp [hb, Nat.xor_assoc, Nat.xor_comm, xor_left_comm]

lemma gmul_xor_left (x y b : Nat) : gmul (x ^^^ y) b = gmul x b ^^^ gmul y b := by
  unfold gmul
  rw [gmulLoop_linear, Nat.and_xor_distrib_right]

lemma gmulShift_zero : gmulShift 0 = 0 := by decide

lemma gmulLoop_zero_a (n : Nat) : ∀ p b, gmulLoop n p 0 b = p := by
  induction n with
  | zero => intro p b; rfl
  | succ n ih =>
      intro p b
      simp only [gmulLoop, gmulShift_zero]
      rw [show (if b &&& 1 ≠ 0 then p ^^^ 0 else p) = p by simp, ih]

lemma gmul_zero_left (b : Nat) : gmul 0 b = 0 := by
  unfold gmul
  rw [gmulLoop_zero_a]
  rfl

lemma clmulAux_linear (n : Nat) :
    ∀ x y b, clmulAux n (x ^^^ y) b = clmulAux n x b ^^^ clmulAux n y b := by
  induction n with
  | zero => intro x y b; simp [clmulAux]
  | succ n ih =>
      intro x y b
      simp only [clmulAux]
      rw [shiftLeft_xor_dist, ih]
      by_cases hb : b % 2 = 1 <;>
        simp [hb, Nat.xor_assoc, Nat.xor_comm, xor_left_comm]

lemma polyReduceStep_xor (x y i : Nat) :
    polyReduceStep (x ^^^ y) i = polyReduceStep x i ^^^ polyReduceStep y i := by
  simp only [polyReduceStep, Nat.testBit_xor]
  cases hx : x.testBit (i + 8) <;> cases hy : y.testBit (i + 8) <;>
    simp [Nat.xor_assoc, Nat.xor_comm, xor_left_comm]

lemma polyMod16_xor (x y : Nat) : polyMod16 (x ^^^ y) = polyMod16 x ^^^ polyMod16 y := by
  simp only [polyMod16, polyReduceStep_xor]

lemma gfMulRef_xor_left (x y b : Nat) : gfMulRef (x ^^^ y) b = gfMulRef x b ^^^ gfMulRef y b := by
  simp only [gfMulRef, clmul, clmulAux_linear, polyMod16_xor]

lemma clmulAux_zero_a (n : Nat) : ∀ b, clmulAux n 0 b = 0 := by
  induction n with
  | zero => intro b; rfl
  | succ n ih =>
      intro b
      simp only [clmulAux, Nat.zero_shiftLeft]
      rw [ih]
      simp

lemma gfMulRef_zero_left (b : Nat) : gfMulRef 0 b = 0 := by
  simp only [gfMulRef, clmul, clmulAux_zero_a]
  decide

lemma gmul_ite (c : Prop) [Decidable c] (x b : Nat) :
    gmul (if c then x else 0) b = if c then gmul x b else 0 := by
  split <;> simp [gmul_zero_left]

lemma gfMulRef_ite (c : Prop) [Decidable c] (x b : Nat) :
    gfMulRef (if c then x else 0) b = if c then gfMulRef x b else 0 := by
  split <;> simp [gfMulRef_zero_left]

set_option maxRecDepth 10000 in
/-- Every byte is the XOR of the powers of two at its set bits. -/
lemma byte_xor_decomp : ∀ a < 256,
    ((if a.testBit 0 then 1 else 0) ^^^ ((if a.testBit 1 then 2 else 0) ^^^
     ((if a.testBit 2 then 4 else 0) ^^^ ((if a.testBit 3 then 8 else 0) ^^^
     ((if a.testBit 4 then 16 else 0) ^^^ ((if a.testBit 5 then 32 else 0) ^^^
     ((if a.testBit 6 then 64 else 0) ^^^ (if a.testBit 7 then 128 else 0)))))))) = a := by
  decide

set_option maxRecDepth 10000 in
set_option maxHeartbeats 2000000 in
/-- `gmul` agrees with the field product on the eight power-of-two
multiplicands. -/
lemma gmul_basis : ∀ b < 256,
    gmul 1 b = gfMulRef 1 b ∧ gmul 2 b = gfMulRef 2 b ∧ gmul 4 b = gfMulRef 4 b ∧
    gmul 8 b = gfMulRef 8 b ∧ gmul 16 b = gfMulRef 16 b ∧ gmul 32 b = gfMulRef 32 b ∧
    gmul 64 b = gfMulRef 64 b ∧ gmul 128 b = gfMulRef 128 b := by
  decide

set_option maxRecDepth 10000 in
set_option maxHeartbeats 1000000 in
/-- The S-box is a byte-valued table inverted by the inverse S-box. -/
lemma sbox_inv_sbox : ∀ b < 256, SBOX.getD b 0 < 256 ∧ INV_SBOX.getD (SBOX.getD b 0) 0 = b := by
  decide

set_option maxRecDepth 10000 in
set_option maxHeartbeats 1000000 in
lemma rcon_lt : ∀ i, RCON.getD i 0 < 256 := by
  intro i
  rcases Nat.lt_or_ge i 14 with h | h
  · revert h
    revert i
    decide
  · rw [List.getD_eq_default]
    · decide
    · simpa using h

set_option maxRecDepth 10000 in
lemma sbox_getD_lt (b : Nat) : SBOX.getD b 0 < 256 := by
  rcases Nat.lt_or_ge b 256 with h | h
  · exact (sbox_inv_sbox b h).1
  · rw [List.getD_eq_default]
    · decide
    · simpa using h

lemma gmul_lt (a b : Nat) : gmul a b < 256 := by
  have h : gmulLoop 8 0 a b &&& 0xFF ≤ 0xFF := Nat.and_le_right
  unfold gmul
  omega

set_option maxRecDepth 10000 in
set_option maxHeartbeats 4000000 in
/-- The sixteen coefficient identities of `InvMixColumns ∘ MixColumns`: for each
output row, the combined GF(2^8) coefficient of each input byte is 1 on the
diagonal and 0 off it. -/
lemma mix_coeffs : ∀ x < 256,
    (gmul (gmul x 2) 14 ^^^ gmul x 11 ^^^ gmul x 13 ^^^ gmul (gmul x 3) 9 = x ∧
     gmul (gmul x 3) 14 ^^^ gmul (gmul x 2) 11 ^^^ gmul x 13 ^^^ gmul x 9 = 0 ∧
     gmul x 14 ^^^ gmul (gmul x 3) 11 ^^^ gmul (gmul x 2) 13 ^^^ gmul x 9 = 0 ∧
     gmul x 14 ^^^ gmul x 11 ^^^ gmul (gmul x 3) 13 ^^^ gmul (gmul x 2) 9 = 0) ∧
    (gmul (gmul x 2) 9 ^^^ gmul x 14 ^^^ gmul x 11 ^^^ gmul (gmul x 3) 13 = 0 ∧
     gmul (gmul x 3) 9 ^^^ gmul (gmul x 2) 14 ^^^ gmul x 11 ^^^ gmul x 13 = x ∧
     gmul x 9 ^^^ gmul (gmul x 3) 14 ^^^ gmul (gmul x 2) 11 ^^^ gmul x 13 = 0 ∧
     gmul x 9 ^^^ gmul x 14 ^^^ gmul (gmul x 3) 11 ^^^ gmul (gmul x 2) 13 = 0) ∧
    (gmul (gmul x 2) 13 ^^^ gmul x 9 ^^^ gmul x 14 ^^^ gmul (gmul x 3) 11 = 0 ∧
     gmul (gmul x 3) 13 ^^^ gmul (gmul x 2) 9 ^^^ gmul x 14 ^^^ gmul x 11 = 0 ∧
     gmul x 13 ^^^ gmul (gmul x 3) 9 ^^^ gmul (gmul x 2) 14 ^^^ gmul x 11 = x ∧
     gmul x 13 ^^^ gmul x 9 ^^^ gmul (gmul x 3) 14 ^^^ gmul (gmul x 2) 11 = 0) ∧
    (gmul (gmul x 2) 11 ^^^ gmul x 13 ^^^ gmul x 9 ^^^ gmul (gmul x 3) 14 = 0 ∧
     gmul (gmul x 3) 11 ^^^ gmul (gmul x 2) 13 ^^^ gmul x 9 ^^^ gmul x 14 = 0 ∧
     gmul x 11 ^^^ gmul (gmul x 3) 13 ^^^ gmul (gmul x 2) 9 ^^^ gmul x 14 = 0 ∧
     gmul x 11 ^^^ gmul x 13 ^^^ gmul (gmul x 3) 9 ^^^ gmul (gmul x 2) 14 = x) := by
  decide

/-- C5: `gmul` returns a byte equal to the GF(2^8) product of its byte
arguments under the AES irreducible polynomial `x^8 + x^4 + x^3 + x + 1`
(reduction constant `0x1b`). -/
theorem gmul_is_gf_product (a b : Nat) (ha : a < 256) (hb : b < 256) :
    gmul a b < 256 ∧ gmul a b = gfMulRef a b := by
  refine ⟨gmul_lt a b, ?_⟩
  rw [← byte_xor_decomp a ha]
  simp only [gmul_xor_left, gfMulRef_xor_left, gmul_ite, gfMulRef_ite]
  obtain ⟨h1, h2, h3, h4, h5, h6, h7, h8⟩ := gmul_basis b hb
  rw [h1, h2, h3, h4, h5, h6, h7, h8]

/-- Witness for C5 at the classical FIPS-197 worked example `57 · 83 = c1`. -/
theorem gmul_is_gf_product_witness :
    gmul 0x57 0x83 < 256 ∧ gmul 0x57 0x83 = gfMulRef 0x57 0x83 :=
  gmul_is_gf_product 0x57 0x83 (by decide) (by decide)

/-! ### Byte and shape bookkeeping -/

lemma xor_lt_256 {x y : Nat} (hx : x < 256) (hy : y < 256) : x ^^^ y < 256 := by
  have h : (256 : Nat) = 2 ^ 8 := by norm_num
  rw [h] at hx hy ⊢
  exact Nat.xor_lt_two_pow hx hy

set_option maxRecDepth 10000 in
lemma inv_sbox_getD_lt (b : Nat) : INV_SBOX.getD b 0 < 256 := by
  rcases Nat.lt_or_ge b 256 with h | h
  · revert h
    revert b
    decide
  · rw [List.getD_eq_default]
    · decide
    · simpa using h

lemma getD_lt_of_all (l : List Nat) (h : ∀ b ∈ l, b < 256) (i : Nat) : l.getD i 0 < 256 := by
  rcases Nat.lt_or_ge i l.length with hi | hi
  · rw [List.getD_eq_getElem l 0 hi]
    exact h _ (List.getElem_mem hi)
  · rw [List.getD_eq_default l 0 hi]
    omega

lemma len4_ex {α : Type} (l : List α) (h : l.length = 4) : ∃ a b c d, l = [a, b, c, d] := by
  rcases l with _ | ⟨a, l⟩
  · simp at h
  rcases l with _ | ⟨b, l⟩
  · simp at h
  rcases l with _ | ⟨c, l⟩
  · simp at h
  rcases l with _ | ⟨d, l⟩
  · simp at h
  rcases l with _ | ⟨e, l⟩
  · exact ⟨a, b, c, d, rfl⟩
  · simp at h

/-- Well-formed cipher state: a 4×4 matrix of bytes. -/
def StateB (s : List (List Nat)) : Prop :=
  s.length = 4 ∧ (∀ r ∈ s, r.length = 4) ∧ (∀ r ∈ s, ∀ b ∈ r, b < 256)

lemma stateB_ex (s : List (List Nat)) (hs : StateB s) :
    ∃ a0 a1 a2 a3 b0 b1 b2 b3 c0 c1 c2 c3 d0 d1 d2 d3,
      s = [[a0, a1, a2, a3], [b0, b1, b2, b3], [c0, c1, c2, c3], [d0, d1, d2, d3]] ∧
      a0 < 256 ∧ a1 < 256 ∧ a2 < 256 ∧ a3 < 256 ∧
      b0 < 256 ∧ b1 < 256 ∧ b2 < 256 ∧ b3 < 256 ∧
      c0 < 256 ∧ c1 < 256 ∧ c2 < 256 ∧ c3 < 256 ∧
      d0 < 256 ∧ d1 < 256 ∧ d2 < 256 ∧ d3 < 256 := by
  obtain ⟨hlen, hrow, hbyte⟩ := hs
  obtain ⟨r0, r1, r2, r3, rfl⟩ := len4_ex s hlen
  obtain ⟨a0, a1, a2, a3, rfl⟩ := len4_ex r0 (hrow _ (by simp))
  obtain ⟨b0, b1, b2, b3, rfl⟩ := len4_ex r1 (hrow _ (by simp))
  obtain ⟨c0, c1, c2, c3, rfl⟩ := len4_ex r2 (hrow _ (by simp))
  obtain ⟨d0, d1, d2, d3, rfl⟩ := len4_ex r3 (hrow _ (by simp))
  have h1 : ∀ b ∈ [a0, a1, a2, a3], b < 256 := hbyte _ (by simp)
  have h2 : ∀ b ∈ [b0, b1, b2, b3], b < 256 := hbyte _ (by simp)
  have h3 : ∀ b ∈ [c0, c1, c2, c3], b < 256 := hbyte _ (by simp)
  have h4 : ∀ b ∈ [d0, d1, d2, d3], b < 256 := hbyte _ (by simp)
  exact ⟨a0, a1, a2, a3, b0, b1, b2, b3, c0, c1, c2, c3, d0, d1, d2, d3, rfl,
    h1 a0 (by simp), h1 a1 (by simp), h1 a2 (by simp), h1 a3 (by simp),
    h2 b0 (by simp), h2 b1 (by simp), h2 b2 (by simp), h2 b3 (by simp),
    h3 c0 (by simp), h3 c1 (by simp), h3 c2 (by simp), h3 c3 (by simp),
    h4 d0 (by simp), h4 d1 (by simp), h4 d2 (by simp), h4 d3 (by simp)⟩

/-! ### The paired state transforms invert each other -/

lemma inv_sub_sub (s : List (List Nat)) (hs : ∀ r ∈ s, ∀ b ∈ r, b < 256) :
    inv_sub_bytes (sub_bytes s) = s := by
  unfold sub_bytes inv_sub_bytes
  rw [List.map_map]
  conv_rhs => rw [← List.map_id s]
  apply List.map_congr_left
  intro r hr
  simp only [Function.comp_apply, List.map_map, id_eq]
  conv_rhs => rw [← List.map_id r]
  apply List.map_congr_left
  intro b hb
  simp only [Function.comp_apply, id_eq]
  exact (sbox_inv_sbox b (hs r hr b hb)).2

lemma inv_shift_shift (s : List (List Nat)) (hlen : s.length = 4)
    (hrow : ∀ r ∈ s, r.length = 4) : inv_shift_rows (shift_rows s) = s := by
  obtain ⟨r0, r1, r2, r3, rfl⟩ := len4_ex s hlen
  obtain ⟨a0, a1, a2, a3, rfl⟩ := len4_ex r1 (hrow _ (by simp))
  obtain ⟨b0, b1, b2, b3, rfl⟩ := len4_ex r2 (hrow _ (by simp))
  obtain ⟨c0, c1, c2, c3, rfl⟩ := len4_ex r3 (hrow _ (by simp))
  rfl

lemma ark_ark (s k : List (List Nat)) (hs : s.length = 4) (hsr : ∀ r ∈ s, r.length = 4)
    (hk : k.length = 4) (hkr : ∀ r ∈ k, r.length = 4) :
    add_round_key (add_round_key s k) k = s := by
  obtain ⟨r0, r1, r2, r3, rfl⟩ := len4_ex s hs
  obtain ⟨a0, a1, a2, a3, rfl⟩ := len4_ex r0 (hsr _ (by simp))
  obtain ⟨b0, b1, b2, b3, rfl⟩ := len4_ex r1 (hsr _ (by simp))
  obtain ⟨c0, c1, c2, c3, rfl⟩ := len4_ex r2 (hsr _ (by simp))
  obtain ⟨d0, d1, d2, d3, rfl⟩ := len4_ex r3 (hsr _ (by simp))
  obtain ⟨k0, k1, k2, k3, rfl⟩ := len4_ex k hk
  obtain ⟨e0, e1, e2, e3, rfl⟩ := len4_ex k0 (hkr _ (by simp))
  obtain ⟨f0, f1, f2, f3, rfl⟩ := len4_ex k1 (hkr _ (by simp))
  obtain ⟨g0, g1, g2, g3, rfl⟩ := len4_ex k2 (hkr _ (by simp))
  obtain ⟨h0, h1, h2, h3, rfl⟩ := len4_ex k3 (hkr _ (by simp))
  simp [add_round_key, Nat.xor_cancel_right]

lemma invmix_row0 (a b c d : Nat) (ha : a < 256) (hb : b < 256) (hc : c < 256) (hd : d < 256) :
    gmul (gmul a 2 ^^^ gmul b 3 ^^^ c ^^^ d) 14 ^^^ gmul (a ^^^ gmul b 2 ^^^ gmul c 3 ^^^ d) 11 ^^^
      gmul (a ^^^ b ^^^ gmul c 2 ^^^ gmul d 3) 13 ^^^
      gmul (gmul a 3 ^^^ b ^^^ c ^^^ gmul d 2) 9 = a := by
  have Ha := ((mix_coeffs a ha).1).1
  have Hb := ((mix_coeffs b hb).1).2.1
  have Hc := ((mix_coeffs c hc).1).2.2.1
  have Hd := ((mix_coeffs d hd).1).2.2.2
  calc gmul (gmul a 2 ^^^ gmul b 3 ^^^ c ^^^ d) 14 ^^^
        gmul (a ^^^ gmul b 2 ^^^ gmul c 3 ^^^ d) 11 ^^^
        gmul (a ^^^ b ^^^ gmul c 2 ^^^ gmul d 3) 13 ^^^
        gmul (gmul a 3 ^^^ b ^^^ c ^^^ gmul d 2) 9
      = (gmul (gmul a 2) 14 ^^^ gmul a 11 ^^^ gmul a 13 ^^^ gmul (gmul a 3) 9) ^^^
        ((gmul (gmul b 3) 14 ^^^ gmul (gmul b 2) 11 ^^^ gmul b 13 ^^^ gmul b 9) ^^^
         ((gmul c 14 ^^^ gmul (gmul c 3) 11 ^^^ gmul (gmul c 2) 13 ^^^ gmul c 9) ^^^
          (gmul d 14 ^^^ gmul d 11 ^^^ gmul (gmul d 3) 13 ^^^ gmul (gmul d 2) 9))) := by
        simp only [gmul_xor_left]
        simp [Nat.xor_assoc, Nat.xor_comm, xor_left_comm]
    _ = a ^^^ (0 ^^^ (0 ^^^ 0)) := by rw [Ha, Hb, Hc, Hd]
    _ = a := by simp

lemma invmix_row1 (a b c d : Nat) (ha : a < 256) (hb : b < 256) (hc : c < 256) (hd : d < 256) :
    gmul (gmul a 2 ^^^ gmul b 3 ^^^ c ^^^ d) 9 ^^^ gmul (a ^^^ gmul b 2 ^^^ gmul c 3 ^^^ d) 14 ^^^
      gmul (a ^^^ b ^^^ gmul c 2 ^^^ gmul d 3) 11 ^^^
      gmul (gmul a 3 ^^^ b ^^^ c ^^^ gmul d 2) 13 = b := by
  have Ha := ((mix_coeffs a ha).2.1).1
  have Hb := ((mix_coeffs b hb).2.1).2.1
  have Hc := ((mix_coeffs c hc).2.1).2.2.1
  have Hd := ((mix_coeffs d hd).2.1).2.2.2
  calc gmul (gmul a 2 ^^^ gmul b 3 ^^^ c ^^^ d) 9 ^^^
        gmul (a ^^^ gmul b 2 ^^^ gmul c 3 ^^^ d) 14 ^^^
        gmul (a ^^^ b ^^^ gmul c 2 ^^^ gmul d 3) 11 ^^^
        gmul (gmul a 3 ^^^ b ^^^ c ^^^ gmul d 2) 13
      = (gmul (gmul a 2) 9 ^^^ gmul a 14 ^^^ gmul a 11 ^^^ gmul (gmul a 3) 13) ^^^
        ((gmul (gmul b 3) 9 ^^^ gmul (gmul b 2) 14 ^^^ gmul b 11 ^^^ gmul b 13) ^^^
         ((gmul c 9 ^^^ gmul (gmul c 3) 14 ^^^ gmul (gmul c 2) 11 ^^^ gmul c 13) ^^^
          (gmul d 9 ^^^ gmul d 14 ^^^ gmul (gmul d 3) 11 ^^^ gmul (gmul d 2) 13))) := by
        simp only [gmul_xor_left]
        simp [Nat.xor_assoc, Nat.xor_comm, xor_left_comm]
    _ = 0 ^^^ (b ^^^ (0 ^^^ 0)) := by rw [Ha, Hb, Hc, Hd]
    _ = b := by simp

lemma invmix_row2 (a b c d : Nat) (ha : a < 256) (hb : b < 256) (hc : c < 256) (hd : d < 256) :
    gmul (gmul a 2 ^^^ gmul b 3 ^^^ c ^^^ d) 13 ^^^ gmul (a ^^^ gmul b 2 ^^^ gmul c 3 ^^^ d) 9 ^^^
      gmul (a ^^^ b ^^^ gmul c 2 ^^^ gmul d 3) 14 ^^^
      gmul (gmul a 3 ^^^ b ^^^ c ^^^ gmul d 2) 11 = c := by
  have Ha := ((mix_coeffs a ha).2.2.1).1
  have Hb := ((mix_coeffs b hb).2.2.1).2.1
  have Hc := ((mix_coeffs c hc).2.2.1).2.2.1
  have Hd := ((mix_coeffs d hd).2.2.1).2.2.2
  calc gmul (gmul a 2 ^^^ gmul b 3 ^^^ c ^^^ d) 13 ^^^
        gmul (a ^^^ gmul b 2 ^^^ gmul c 3 ^^^ d) 9 ^^^
        gmul (a ^^^ b ^^^ gmul c 2 ^^^ gmul d 3) 14 ^^^
        gmul (gmul a 3 ^^^ b ^^^ c ^^^ gmul d 2) 11
      = (gmul (gmul a 2) 13 ^^^ gmul a 9 ^^^ gmul a 14 ^^^ gmul (gmul a 3) 11) ^^^
        ((gmul (gmul b 3) 13 ^^^ gmul (gmul b 2) 9 ^^^ gmul b 14 ^^^ gmul b 11) ^^^
         ((gmul c 13 ^^^ gmul (gmul c 3) 9 ^^^ gmul (gmul c 2) 14 ^^^ gmul c 11) ^^^
          (gmul d 13 ^^^ gmul d 9 ^^^ gmul (gmul d 3) 14 ^^^ gmul (gmul d 2) 11))) := by
        simp only [gmul_xor_left]
        simp [Nat.xor_assoc, Nat.xor_comm, xor_left_comm]
    _ = 0 ^^^ (0 ^^^ (c ^^^ 0)) := by rw [Ha, Hb, Hc, Hd]
    _ = c := by simp

lemma invmix_row3 (a b c d : Nat) (ha : a < 256) (hb : b < 256) (hc : c < 256) (hd : d < 256) :
    gmul (gmul a 2 ^^^ gmul b 3 ^^^ c ^^^ d) 11 ^^^ gmul (a ^^^ gmul b 2 ^^^ gmul c 3 ^^^ d) 13 ^^^
      gmul (a ^^^ b ^^^ gmul c 2 ^^^ gmul d 3) 9 ^^^
      gmul (gmul a 3 ^^^ b ^^^ c ^^^ gmul d 2) 14 = d := by
  have Ha := ((mix_coeffs a ha).2.2.2).1
  have Hb := ((mix_coeffs b hb).2.2.2).2.1
  have Hc := ((mix_coeffs c hc).2.2.2).2.2.1
  have Hd := ((mix_coeffs d hd).2.2.2).2.2.2
  calc gmul (gmul a 2 ^^^ gmul b 3 ^^^ c ^^^ d) 11 ^^^
        gmul (a ^^^ gmul b 2 ^^^ gmul c 3 ^^^ d) 13 ^^^
        gmul (a ^^^ b ^^^ gmul c 2 ^^^ gmul d 3) 9 ^^^
        gmul (gmul a 3 ^^^ b ^^^ c ^^^ gmul d 2) 14
      = (gmul (gmul a 2) 11 ^^^ gmul a 13 ^^^ gmul a 9 ^^^ gmul (gmul a 3) 14) ^^^
        ((gmul (gmul b 3) 11 ^^^ gmul (gmul b 2) 13 ^^^ gmul b 9 ^^^ gmul b 14) ^^^
         ((gmul c 11 ^^^ gmul (gmul c 3) 13 ^^^ gmul (gmul c 2) 9 ^^^ gmul c 14) ^^^
          (gmul d 11 ^^^ gmul d 13 ^^^ gmul (gmul d 3) 9 ^^^ gmul (gmul d 2) 14))) := by
        simp only [gmul_xor_left]
        simp [Nat.xor_assoc, Nat.xor_comm, xor_left_comm]
    _ = 0 ^^^ (0 ^^^ (0 ^^^ d)) := by rw [Ha, Hb, Hc, Hd]
    _ = d := by simp

lemma inv_mix_mix (s : List (List Nat)) (hs : StateB s) :
    inv_mix_columns (mix_columns s) = s := by
  obtain ⟨a0, a1, a2, a3, b0, b1, b2, b3, c0, c1, c2, c3, d0, d1, d2, d3, rfl,
    ha0, ha1, ha2, ha3, hb0, hb1, hb2, hb3, hc0, hc1, hc2, hc3, hd0, hd1, hd2, hd3⟩ :=
    stateB_ex s hs
  simp only [mix_columns, inv_mix_columns, List.cons.injEq, and_true]
  exact ⟨⟨invmix_row0 a0 b0 c0 d0 ha0 hb0 hc0 hd0, invmix_row0 a1 b1 c1 d1 ha1 hb1 hc1 hd1,
          invmix_row0 a2 b2 c2 d2 ha2 hb2 hc2 hd2, invmix_row0 a3 b3 c3 d3 ha3 hb3 hc3 hd3⟩,
         ⟨invmix_row1 a0 b0 c0 d0 ha0 hb0 hc0 hd0, invmix_row1 a1 b1 c1 d1 ha1 hb1 hc1 hd1,
          invmix_row1 a2 b2 c2 d2 ha2 hb2 hc2 hd2, invmix_row1 a3 b3 c3 d3 ha3 hb3 hc3 hd3⟩,
         ⟨invmix_row2 a0 b0 c0 d0 ha0 hb0 hc0 hd0, invmix_row2 a1 b1 c1 d1 ha1 hb1 hc1 hd1,
          invmix_row2 a2 b2 c2 d2 ha2 hb2 hc2 hd2, invmix_row2 a3 b3 c3 d3 ha3 hb3 hc3 hd3⟩,
         ⟨invmix_row3 a0 b0 c0 d0 ha0 hb0 hc0 hd0, invmix_row3 a1 b1 c1 d1 ha1 hb1 hc1 hd1,
          invmix_row3 a2 b2 c2 d2 ha2 hb2 hc2 hd2, invmix_row3 a3 b3 c3 d3 ha3 hb3 hc3 hd3⟩⟩

/-! ### The transforms preserve well-formed states -/

lemma stateB_mk (a0 a1 a2 a3 b0 b1 b2 b3 c0 c1 c2 c3 d0 d1 d2 d3 : Nat)
    (ha0 : a0 < 256) (ha1 : a1 < 256) (ha2 : a2 < 256) (ha3 : a3 < 256)
    (hb0 : b0 < 256) (hb1 : b1 < 256) (hb2 : b2 < 256) (hb3 : b3 < 256)
    (hc0 : c0 < 256) (hc1 : c1 < 256) (hc2 : c2 < 256) (hc3 : c3 < 256)
    (hd0 : d0 < 256) (hd1 : d1 < 256) (hd2 : d2 < 256) (hd3 : d3 < 256) :
    StateB [[a0, a1, a2, a3], [b0, b1, b2, b3], [c0, c1, c2, c3], [d0, d1, d2, d3]] := by
  refine ⟨rfl, ?_, ?_⟩
  · intro r hr
    simp at hr
    rcases hr with rfl | rfl | rfl | rfl <;> rfl
  · intro r hr b hb
    simp at hr
    rcases hr with rfl | rfl | rfl | rfl <;>
      (simp at hb; rcases hb with rfl | rfl | rfl | rfl <;> assumption)

lemma stateB_sub (s : List (List Nat)) (hs : StateB s) : StateB (sub_bytes s) := by
  obtain ⟨a0, a1, a2, a3, b0, b1, b2, b3, c0, c1, c2, c3, d0, d1, d2, d3, rfl, -⟩ :=
    stateB_ex s hs
  apply stateB_mk <;> exact sbox_getD_lt _

lemma stateB_shift (s : List (List Nat)) (hs : StateB s) : StateB (shift_rows s) := by
  obtain ⟨a0, a1, a2, a3, b0, b1, b2, b3, c0, c1, c2, c3, d0, d1, d2, d3, rfl,
    ha0, ha1, ha2, ha3, hb0, hb1, hb2, hb3, hc0, hc1, hc2, hc3, hd0, hd1, hd2, hd3⟩ :=
    stateB_ex s hs
  apply stateB_mk <;> assumption

lemma stateB_mix (s : List (List Nat)) (hs : StateB s) : StateB (mix_columns s) := by
  obtain ⟨a0, a1, a2, a3, b0, b1, b2, b3, c0, c1, c2, c3, d0, d1, d2, d3, rfl,
    ha0, ha1, ha2, ha3, hb0, hb1, hb2, hb3, hc0, hc1, hc2, hc3, hd0, hd1, hd2, hd3⟩ :=
    stateB_ex s hs
  apply stateB_mk <;>
    repeat (first | assumption | exact gmul_lt _ _ | apply xor_lt_256)

lemma stateB_ark (s k : List (List Nat)) (hs : StateB s) (hk : StateB k) :
    StateB (add_round_key s k) := by
  obtain ⟨a0, a1, a2, a3, b0, b1, b2, b3, c0, c1, c2, c3, d0, d1, d2, d3, rfl,
    ha0, ha1, ha2, ha3, hb0, hb1, hb2, hb3, hc0, hc1, hc2, hc3, hd0, hd1, hd2, hd3⟩ :=
    stateB_ex s hs
  obtain ⟨e0, e1, e2, e3, f0, f1, f2, f3, g0, g1, g2, g3, j0, j1, j2, j3, rfl,
    he0, he1, he2, he3, hf0, hf1, hf2, hf3, hg0, hg1, hg2, hg3, hj0, hj1, hj2, hj3⟩ :=
    stateB_ex k hk
  apply stateB_mk <;>
    repeat (first | assumption | apply xor_lt_256)

/-! ### Well-formedness of the expanded round keys -/

lemma getD_word_bytes (ws : List (List Nat)) (h : ∀ w ∈ ws, ∀ b ∈ w, b < 256) (m : Nat) :
    ∀ b ∈ ws.getD m [], b < 256 := by
  rcases Nat.lt_or_ge m ws.length with hm | hm
  · rw [List.getD_eq_getElem ws [] hm]
    exact h _ (List.getElem_mem hm)
  · rw [List.getD_eq_default ws [] hm]
    simp

lemma subWord_bytes (w : List Nat) : ∀ b ∈ subWord w, b < 256 := by
  intro b hb
  simp only [subWord, List.mem_map] at hb
  obtain ⟨x, -, rfl⟩ := hb
  exact sbox_getD_lt x

lemma rconXorHead_bytes (w : List Nat) (r : Nat) (hw : ∀ b ∈ w, b < 256) :
    ∀ b ∈ rconXorHead w r, b < 256 := by
  intro b hb
  cases w with
  | nil => simp [rconXorHead] at hb
  | cons t0 rest =>
      simp only [rconXorHead, List.mem_cons] at hb
      rcases hb with rfl | hb
      · exact xor_lt_256 (hw t0 (by simp)) (rcon_lt _)
      · exact hw b (List.mem_cons_of_mem _ hb)

lemma scheduleTemp_bytes (i : Nat) (w : List Nat) (hw : ∀ b ∈ w, b < 256) :
    ∀ b ∈ scheduleTemp i w, b < 256 := by
  unfold scheduleTemp
  split
  · exact rconXorHead_bytes _ _ (subWord_bytes _)
  · split
    · exact subWord_bytes _
    · exact hw

lemma nextWord_bytes (ws : List (List Nat)) (i : Nat) (h : ∀ w ∈ ws, ∀ b ∈ w, b < 256) :
    ∀ b ∈ nextWord ws i, b < 256 := by
  intro b hb
  simp only [nextWord, wordXor, List.mem_map] at hb
  obtain ⟨j, -, rfl⟩ := hb
  exact xor_lt_256
    (getD_lt_of_all _ (getD_word_bytes ws h _) _)
    (getD_lt_of_all _ (scheduleTemp_bytes i _ (getD_word_bytes ws h _)) _)

lemma keyWords_bytes (key : List Nat) (hkB : ∀ b ∈ key, b < 256) :
    ∀ n, ∀ w ∈ keyWords key n, ∀ b ∈ w, b < 256 := by
  intro n
  induction n with
  | zero => intro w hw; simp [keyWords] at hw
  | succ n ih =>
      intro w hw
      simp only [keyWords] at hw
      split at hw <;> rcases List.mem_append.1 hw with hw' | hw'
      · exact ih w hw'
      · intro b hb
        simp at hw'
        subst hw'
        simp at hb
        rcases hb with rfl | rfl | rfl | rfl <;>
          simpa [List.getD_eq_getElem?_getD] using getD_lt_of_all key hkB _
      · exact ih w hw'
      · intro b hb
        simp at hw'
        subst hw'
        exact nextWord_bytes _ _ ih b hb

lemma keyWords_length (key : List Nat) : ∀ n, (keyWords key n).length = n := by
  intro n
  induction n with
  | zero => rfl
  | succ n ih => simp only [keyWords]; split <;> simp [ih]

lemma key_expansion_getD (key : List Nat) (i : Nat) (hi : i < 15) :
    (key_expansion key).getD i [] =
      (List.range 4).map (fun r =>
        (List.range 4).map (fun j => ((keyWords key 60).getD (4*i + j) []).getD r 0)) := by
  unfold key_expansion
  rw [List.getD_eq_getElem?_getD, List.getElem?_map, List.getElem?_range hi]
  rfl

lemma stateB_round_key (key : List Nat) (hkB : ∀ b ∈ key, b < 256) (i : Nat) (hi : i < 15) :
    StateB ((key_expansion key).getD i []) := by
  rw [key_expansion_getD key i hi]
  have hw := keyWords_bytes key hkB 60
  refine ⟨by simp, ?_, ?_⟩
  · intro r hr
    simp only [List.mem_map] at hr
    obtain ⟨j, -, rfl⟩ := hr
    simp
  · intro r hr b hb
    simp only [List.mem_map] at hr
    obtain ⟨jr, -, rfl⟩ := hr
    simp only [List.mem_map] at hb
    obtain ⟨jc, -, rfl⟩ := hb
    exact getD_lt_of_all _ (getD_word_bytes _ hw _) _

/-! ### Serialization between byte blocks and states -/

lemma len16_ex (l : List Nat) (h : l.length = 16) :
    ∃ x0 x1 x2 x3 x4 x5 x6 x7 x8 x9 x10 x11 x12 x13 x14 x15,
      l = [x0, x1, x2, x3, x4, x5, x6, x7, x8, x9, x10, x11, x12, x13, x14, x15] := by
  rcases l with _ | ⟨x0, l⟩; · simp at h
  rcases l with _ | ⟨x1, l⟩; · simp at h
  rcases l with _ | ⟨x2, l⟩; · simp at h
  rcases l with _ | ⟨x3, l⟩; · simp at h
  rcases l with _ | ⟨x4, l⟩; · simp at h
  rcases l with _ | ⟨x5, l⟩; · simp at h
  rcases l with _ | ⟨x6, l⟩; · simp at h
  rcases l with _ | ⟨x7, l⟩; · simp at h
  rcases l with _ | ⟨x8, l⟩; · simp at h
  rcases l with _ | ⟨x9, l⟩; · simp at h
  rcases l with _ | ⟨x10, l⟩; · simp at h
  rcases l with _ | ⟨x11, l⟩; · simp at h
  rcases l with _ | ⟨x12, l⟩; · simp at h
  rcases l with _ | ⟨x13, l⟩; · simp at h
  rcases l with _ | ⟨x14, l⟩; · simp at h
  rcases l with _ | ⟨x15, l⟩; · simp at h
  rcases l with _ | ⟨x16, l⟩
  · exact ⟨x0, x1, x2, x3, x4, x5, x6, x7, x8, x9, x10, x11, x12, x13, x14, x15, rfl⟩
  · simp at h

lemma stateB_b2s (p : List Nat) (hp : p.length = 16) (hpB : ∀ b ∈ p, b < 256) :
    StateB (bytes_to_state p) := by
  obtain ⟨x0, x1, x2, x3, x4, x5, x6, x7, x8, x9, x10, x11, x12, x13, x14, x15, rfl⟩ :=
    len16_ex p hp
  apply stateB_mk <;> exact hpB _ (by simp)

lemma s2b_b2s (p : List Nat) (hp : p.length = 16) : state_to_bytes (bytes_to_state p) = p := by
  obtain ⟨x0, x1, x2, x3, x4, x5, x6, x7, x8, x9, x10, x11, x12, x13, x14, x15, rfl⟩ :=
    len16_ex p hp
  rfl

lemma b2s_s2b (s : List (List Nat)) (hs : StateB s) : bytes_to_state (state_to_bytes s) = s := by
  obtain ⟨a0, a1, a2, a3, b0, b1, b2, b3, c0, c1, c2, c3, d0, d1, d2, d3, rfl, -⟩ :=
    stateB_ex s hs
  rfl

lemma s2b_length (s : List (List Nat)) (hs : StateB s) : (state_to_bytes s).length = 16 := by
  obtain ⟨a0, a1, a2, a3, b0, b1, b2, b3, c0, c1, c2, c3, d0, d1, d2, d3, rfl, -⟩ :=
    stateB_ex s hs
  rfl

lemma s2b_bytes (s : List (List Nat)) (hs : StateB s) : ∀ b ∈ state_to_bytes s, b < 256 := by
  obtain ⟨a0, a1, a2, a3, b0, b1, b2, b3, c0, c1, c2, c3, d0, d1, d2, d3, rfl,
    ha0, ha1, ha2, ha3, hb0, hb1, hb2, hb3, hc0, hc1, hc2, hc3, hd0, hd1, hd2, hd3⟩ :=
    stateB_ex s hs
  intro b hb
  simp only [state_to_bytes, List.mem_cons, List.not_mem_nil, or_false] at hb
  rcases hb with rfl | rfl | rfl | rfl | rfl | rfl | rfl | rfl |
    rfl | rfl | rfl | rfl | rfl | rfl | rfl | rfl <;> assumption

/-! ### The round pipelines cancel -/

lemma encN_zero (rks : List (List (List Nat))) (s0 : List (List Nat)) :
    encN rks 0 s0 = s0 := rfl

lemma decN_zero (rks : List (List (List Nat))) (t0 : List (List Nat)) :
    decN rks 0 t0 = t0 := rfl

lemma encN_succ (rks : List (List (List Nat))) (n : Nat) (s0 : List (List Nat)) :
    encN rks (n + 1) s0 = encRound rks (encN rks n s0) (n + 1) := by
  simp [encN, List.range_succ]

lemma decN_succ (rks : List (List (List Nat))) (n : Nat) (t0 : List (List Nat)) :
    decN rks (n + 1) t0 = decRound rks (decN rks n t0) (13 - n) := by
  simp [decN, List.range_succ]

lemma stateB_encRound (rks : List (List (List Nat))) (hrk : ∀ i < 15, StateB (rks.getD i []))
    (s : List (List Nat)) (hs : StateB s) (r : Nat) (hr : r < 15) :
    StateB (encRound rks s r) :=
  stateB_ark _ _ (stateB_mix _ (stateB_shift _ (stateB_sub _ hs))) (hrk r hr)

lemma stateB_encN (rks : List (List (List Nat))) (hrk : ∀ i < 15, StateB (rks.getD i []))
    (s0 : List (List Nat)) (hs : StateB s0) : ∀ n, n ≤ 13 → StateB (encN rks n s0) := by
  intro n
  induction n with
  | zero => intro _; exact hs
  | succ n ih =>
      intro hn
      rw [encN_succ]
      exact stateB_encRound rks hrk _ (ih (by omega)) (n + 1) (by omega)

lemma decRound_cancel (rks : List (List (List Nat))) (hrk : ∀ i < 15, StateB (rks.getD i []))
    (s : List (List Nat)) (hs : StateB s) (i : Nat) (hi : i < 15) :
    decRound rks (shift_rows (sub_bytes (encRound rks s i))) i = shift_rows (sub_bytes s) := by
  unfold encRound decRound
  have hx : StateB (add_round_key (mix_columns (shift_rows (sub_bytes s))) (rks.getD i [])) :=
    stateB_ark _ _ (stateB_mix _ (stateB_shift _ (stateB_sub _ hs))) (hrk i hi)
  have hsb : StateB (sub_bytes (add_round_key (mix_columns (shift_rows (sub_bytes s)))
      (rks.getD i []))) := stateB_sub _ hx
  rw [inv_shift_shift _ hsb.1 hsb.2.1, inv_sub_sub _ hx.2.2]
  have ht : StateB (mix_columns (shift_rows (sub_bytes s))) :=
    stateB_mix _ (stateB_shift _ (stateB_sub _ hs))
  rw [ark_ark _ _ ht.1 ht.2.1 (hrk i hi).1 (hrk i hi).2.1]
  exact inv_mix_mix _ (stateB_shift _ (stateB_sub _ hs))

lemma decN_encN (rks : List (List (List Nat))) (hrk : ∀ i < 15, StateB (rks.getD i []))
    (s0 : List (List Nat)) (hs : StateB s0) :
    ∀ n, n ≤ 13 →
      decN rks n (shift_rows (sub_bytes (encN rks 13 s0))) =
        shift_rows (sub_bytes (encN rks (13 - n) s0)) := by
  intro n
  induction n with
  | zero => intro _; rw [decN_zero, Nat.sub_zero]
  | succ n ih =>
      intro hn
      rw [decN_succ, ih (by omega)]
      have h13 : 13 - n = (13 - (n + 1)) + 1 := by omega
      rw [h13, encN_succ]
      exact decRound_cancel rks hrk _ (stateB_encN rks hrk s0 hs _ (by omega)) _ (by omega)

lemma aes256_encrypt_block_eq (p k : List Nat) (hp : p.length = 16) (hk : k.length = 32) :
    aes256_encrypt_block p k = some (state_to_bytes (add_round_key (shift_rows (sub_bytes
      (encN (key_expansion k) 13 (add_round_key (bytes_to_state p)
        ((key_expansion k).getD 0 []))))) ((key_expansion k).getD 14 []))) := by
  rw [aes256_encrypt_block, if_pos hp, if_pos hk]

lemma aes256_decrypt_block_eq (c k : List Nat) (hc : c.length = 16) (hk : k.length = 32) :
    aes256_decrypt_block c k = some (state_to_bytes (add_round_key (inv_sub_bytes (inv_shift_rows
      (decN (key_expansion k) 13 (add_round_key (bytes_to_state c)
        ((key_expansion k).getD 14 []))))) ((key_expansion k).getD 0 []))) := by
  rw [aes256_decrypt_block, if_pos hc, if_pos hk]

/-- Core inversion fact for one block: encryption of a well-formed block
succeeds, produces a 16-byte ciphertext of bytes, and decryption returns the
original block. -/
lemma encrypt_block_ok (p k : List Nat) (hp : p.length = 16) (hpB : ∀ b ∈ p, b < 256)
    (hk : k.length = 32) (hkB : ∀ b ∈ k, b < 256) :
    ∃ c, aes256_encrypt_block p k = some c ∧ c.length = 16 ∧ (∀ b ∈ c, b < 256) ∧
      aes256_decrypt_block c k = some p := by
  have hrk : ∀ i < 15, StateB ((key_expansion k).getD i []) :=
    fun i hi => stateB_round_key k hkB i hi
  have hs0 : StateB (add_round_key (bytes_to_state p) ((key_expansion k).getD 0 [])) :=
    stateB_ark _ _ (stateB_b2s p hp hpB) (hrk 0 (by omega))
  have h13 : StateB (encN (key_expansion k) 13
      (add_round_key (bytes_to_state p) ((key_expansion k).getD 0 []))) :=
    stateB_encN _ hrk _ hs0 13 (by omega)
  have hS14 : StateB (add_round_key (shift_rows (sub_bytes (encN (key_expansion k) 13
      (add_round_key (bytes_to_state p) ((key_expansion k).getD 0 [])))))
      ((key_expansion k).getD 14 [])) :=
    stateB_ark _ _ (stateB_shift _ (stateB_sub _ h13)) (hrk 14 (by omega))
  refine ⟨_, aes256_encrypt_block_eq p k hp hk, s2b_length _ hS14, s2b_bytes _ hS14, ?_⟩
  rw [aes256_decrypt_block_eq _ k (s2b_length _ hS14) hk, b2s_s2b _ hS14,
    ark_ark _ _ (stateB_shift _ (stateB_sub _ h13)).1 (stateB_shift _ (stateB_sub _ h13)).2.1
      (hrk 14 (by omega)).1 (hrk 14 (by omega)).2.1]
  have hdec := decN_encN (key_expansion k) hrk _ hs0 13 (by omega)
  rw [show (13 : Nat) - 13 = 0 from rfl] at hdec
  rw [hdec]
  have hsb0 : StateB (sub_bytes (add_round_key (bytes_to_state p)
      ((key_expansion k).getD 0 []))) := stateB_sub _ hs0
  rw [encN_zero, inv_shift_shift _ hsb0.1 hsb0.2.1, inv_sub_sub _ hs0.2.2]
  have hb2s : StateB (bytes_to_state p) := stateB_b2s p hp hpB
  rw [ark_ark _ _ hb2s.1 hb2s.2.1 (hrk 0 (by omega)).1 (hrk 0 (by omega)).2.1]
  rw [s2b_b2s p hp]

/-- C1: decrypting the encryption of any 16-byte block under any 32-byte key
returns the original block. -/
theorem block_roundtrip (p k : List Nat) (hp : p.length = 16) (hpB : ∀ b ∈ p, b < 256)
    (hk : k.length = 32) (hkB : ∀ b ∈ k, b < 256) :
    (aes256_encrypt_block p k).bind (fun c => aes256_decrypt_block c k) = some p := by
  obtain ⟨c, hc, -, -, hdec⟩ := encrypt_block_ok p k hp hpB hk hkB
  rw [hc, Option.some_bind, hdec]

/-- Witness for C1 at the FIPS-197 Appendix C.3 vector. -/
theorem block_roundtrip_witness :
    (aes256_encrypt_block
        [0x00, 0x11, 0x22, 0x33, 0x44, 0x55, 0x66, 0x77,
         0x88, 0x99, 0xaa, 0xbb, 0xcc, 0xdd, 0xee, 0xff]
        [0x00, 0x01, 0x02, 0x03, 0x04, 0x05, 0x06, 0x07, 0x08, 0x09, 0x0a, 0x0b,
         0x0c, 0x0d, 0x0e, 0x0f, 0x10, 0x11, 0x12, 0x13, 0x14, 0x15, 0x16, 0x17,
         0x18, 0x19, 0x1a, 0x1b, 0x1c, 0x1d, 0x1e, 0x1f]).bind
      (fun c => aes256_decrypt_block c
        [0x00, 0x01, 0x02, 0x03, 0x04, 0x05, 0x06, 0x07, 0x08, 0x09, 0x0a, 0x0b,
         0x0c, 0x0d, 0x0e, 0x0f, 0x10, 0x11, 0x12, 0x13, 0x14, 0x15, 0x16, 0x17,
         0x18, 0x19, 0x1a, 0x1b, 0x1c, 0x1d, 0x1e, 0x1f]) =
      some [0x00, 0x11, 0x22, 0x33, 0x44, 0x55, 0x66, 0x77,
            0x88, 0x99, 0xaa, 0xbb, 0xcc, 0xdd, 0xee, 0xff] :=
  block_roundtrip _ _ (by decide) (by decide) (by decide) (by decide)

set_option maxRecDepth 100000 in
set_option maxHeartbeats 1000000 in
/-- C2: the FIPS-197 Appendix C.3 known-answer vector: the given plaintext
block encrypts under the given 256-bit key to exactly the given ciphertext. -/
theorem fips197_c3_vector :
    aes256_encrypt_block
      [0x00, 0x11, 0x22, 0x33, 0x44, 0x55, 0x66, 0x77,
       0x88, 0x99, 0xaa, 0xbb, 0xcc, 0xdd, 0xee, 0xff]
      [0x00, 0x01, 0x02, 0x03, 0x04, 0x05, 0x06, 0x07, 0x08, 0x09, 0x0a, 0x0b,
       0x0c, 0x0d, 0x0e, 0x0f, 0x10, 0x11, 0x12, 0x13, 0x14, 0x15, 0x16, 0x17,
       0x18, 0x19, 0x1a, 0x1b, 0x1c, 0x1d, 0x1e, 0x1f] =
      some [0x8e, 0xa2, 0xb7, 0xca, 0x51, 0x67, 0x45, 0xbf,
            0xea, 0xfc, 0x49, 0x90, 0x4b, 0x49, 0x60, 0x89] := by
  decide

/-- C4: a block whose length is not 16, or a key whose length is not 32, is
rejected by both block-level operations (the Python `ValueError`, modelled as
`none`), so no transform output is ever produced. -/
theorem block_size_precondition (p k : List Nat) (h : p.length ≠ 16 ∨ k.length ≠ 32) :
    aes256_encrypt_block p k = none ∧ aes256_decrypt_block p k = none := by
  unfold aes256_encrypt_block aes256_decrypt_block
  rcases h with h | h <;> constructor <;> simp [h]

/-- Witness for C4: a 15-byte block with a 32-byte key is rejected. -/
theorem block_size_precondition_witness :
    aes256_encrypt_block (List.replicate 15 0) (List.replicate 32 0) = none ∧
      aes256_decrypt_block (List.replicate 15 0) (List.replicate 32 0) = none :=
  block_size_precondition (List.replicate 15 0) (List.replicate 32 0) (Or.inl (by decide))

/-! ### PKCS#7 padding -/

lemma pkcs7_unpad_some (d : List Nat) (n : Nat) (h : d.getLast? = some n) :
    pkcs7_unpad d = some (if n = 0 then [] else d.take (d.length - n)) := by
  unfold pkcs7_unpad
  rw [h]

lemma pad_getLast (m : List Nat) : (pkcs7_pad m).getLast? = some (16 - m.length % 16) := by
  unfold pkcs7_pad
  rw [List.getLast?_append, List.getLast?_replicate,
    if_neg (show ¬(16 - m.length % 16 = 0) by omega)]
  rfl

lemma unpad_pad (m : List Nat) : pkcs7_unpad (pkcs7_pad m) = some m := by
  rw [pkcs7_unpad_some _ _ (pad_getLast m),
    if_neg (show ¬(16 - m.length % 16 = 0) by omega)]
  unfold pkcs7_pad
  rw [List.length_append, List.length_replicate,
    show m.length + (16 - m.length % 16) - (16 - m.length % 16) = m.length by omega,
    List.take_left]

/-- C7: `pkcs7_pad` appends `n = 16 - len % 16` bytes of value `n`, with
`1 ≤ n ≤ 16`, and appends exactly sixteen `0x10` bytes to block-aligned
input. -/
theorem pkcs7_pad_spec (d : List Nat) :
    pkcs7_pad d = d ++ List.replicate (16 - d.length % 16) (16 - d.length % 16) ∧
    1 ≤ 16 - d.length % 16 ∧ 16 - d.length % 16 ≤ 16 ∧
    (d.length % 16 = 0 → pkcs7_pad d = d ++ List.replicate 16 0x10) := by
  refine ⟨rfl, by omega, by omega, ?_⟩
  intro h
  unfold pkcs7_pad
  rw [h]

/-- Witness for C7 at a block-aligned input. -/
theorem pkcs7_pad_spec_witness :
    pkcs7_pad (List.replicate 16 1) =
      List.replicate 16 1 ++
        List.replicate (16 - (List.replicate 16 1).length % 16)
          (16 - (List.replicate 16 1).length % 16) ∧
    1 ≤ 16 - (List.replicate 16 1).length % 16 ∧
    16 - (List.replicate 16 1).length % 16 ≤ 16 ∧
    ((List.replicate 16 1).length % 16 = 0 →
      pkcs7_pad (List.replicate 16 1) = List.replicate 16 1 ++ List.replicate 16 0x10) :=
  pkcs7_pad_spec (List.replicate 16 1)

/-- C8 counterexample: on input `[5, 0]` the padding length byte is `0` and
Python's `data[:-0]` is the empty slice, so `pkcs7_unpad` returns `[]`, not
the input truncated by zero trailing bytes. -/
theorem pkcs7_unpad_counterexample :
    pkcs7_unpad [5, 0] = some [] ∧ ¬ pkcs7_unpad [5, 0] = some [5, 0] := by
  decide

/-- C8 (amended): for non-empty `d` with last byte `n`, `pkcs7_unpad` strips
`min n (len d)` trailing bytes when `n ≥ 1`, but returns the empty sequence
when `n = 0` (Python's `data[:-0] == data[:0]`). -/
theorem pkcs7_unpad_spec (d : List Nat) (n : Nat) (hd : d ≠ []) (hlast : d.getLast? = some n) :
    (1 ≤ n → pkcs7_unpad d = some (d.take (d.length - n))) ∧
    (n = 0 → pkcs7_unpad d = some []) := by
  constructor
  · intro h1
    rw [pkcs7_unpad_some d n hlast, if_neg (by omega)]
  · intro h0
    rw [pkcs7_unpad_some d n hlast, if_pos h0]

/-- Witness for C8 (amended) at `d = [1, 2, 2]`, `n = 2`. -/
theorem pkcs7_unpad_spec_witness :
    (1 ≤ 2 → pkcs7_unpad [1, 2, 2] = some (List.take ([1, 2, 2].length - 2) [1, 2, 2])) ∧
    (2 = 0 → pkcs7_unpad [1, 2, 2] = some []) :=
  pkcs7_unpad_spec [1, 2, 2] 2 (by decide) (by decide)

/-! ### The ECB driver -/

lemma ecb_chunks_roundtrip (k : List Nat) (hk : k.length = 32) (hkB : ∀ b ∈ k, b < 256) :
    ∀ fuel d, d.length ≤ fuel → d.length % 16 = 0 → (∀ b ∈ d, b < 256) →
      ∃ c, ecbEncryptChunks k fuel d = some c ∧ c.length = d.length ∧ (∀ b ∈ c, b < 256) ∧
        (∀ fuel2, d.length ≤ fuel2 → ecbDecryptChunks k fuel2 c = some d) := by
  intro fuel
  induction fuel with
  | zero =>
      intro d hd hm hB
      rcases d with _ | ⟨x, d'⟩
      · exact ⟨[], rfl, rfl, by simp, fun fuel2 _ => by cases fuel2 <;> rfl⟩
      · have := List.length_cons x d'
        omega
  | succ fuel ih =>
      intro d hd hm hB
      rcases d with _ | ⟨x, d'⟩
      · exact ⟨[], rfl, rfl, by simp, fun fuel2 _ => by cases fuel2 <;> rfl⟩
      · have hcons := List.length_cons x d'
        have hlen16 : 16 ≤ (x :: d').length := by omega
        have htake_len : ((x :: d').take 16).length = 16 := by
          rw [List.length_take]
          omega
        obtain ⟨c1, hc1, hc1len, hc1B, hc1dec⟩ :=
          encrypt_block_ok ((x :: d').take 16) k htake_len
            (fun b hb => hB b (List.mem_of_mem_take hb)) hk hkB
        obtain ⟨c2, hc2, hc2len, hc2B, hc2dec⟩ :=
          ih ((x :: d').drop 16) (by rw [List.length_drop]; omega)
            (by rw [List.length_drop]; omega)
            (fun b hb => hB b (List.mem_of_mem_drop hb))
        refine ⟨c1 ++ c2, ?_, ?_, ?_, ?_⟩
        · rw [ecbEncryptChunks, hc1, hc2]
          simp
        · rw [List.length_append, hc1len, hc2len, List.length_drop]
          omega
        · intro b hb
          rcases List.mem_append.1 hb with h | h
          · exact hc1B b h
          · exact hc2B b h
        · intro fuel2 hf2
          rcases fuel2 with _ | fuel2
          · omega
          rcases c1 with _ | ⟨y, c1'⟩
          · simp at hc1len
          have ht16 : (y :: (c1' ++ c2)).take 16 = y :: c1' := by
            rw [← List.cons_append, ← hc1len, List.take_left]
          have hd16 : (y :: (c1' ++ c2)).drop 16 = c2 := by
            rw [← List.cons_append, ← hc1len, List.drop_left]
          rw [List.cons_append, ecbDecryptChunks, ht16, hd16, hc1dec,
            hc2dec fuel2 (by rw [List.length_drop]; omega)]
          · show some (List.take 16 (x :: d') ++ List.drop 16 (x :: d')) = some (x :: d')
            rw [List.take_append_drop]
          all_goals simp

/-- C3: ECB encryption then decryption (including PKCS#7 pad and unpad) is
the identity on every byte sequence, including the empty one. -/
theorem ecb_roundtrip (m k : List Nat) (hmB : ∀ b ∈ m, b < 256)
    (hk : k.length = 32) (hkB : ∀ b ∈ k, b < 256) :
    (aes256_encrypt m k).bind (fun c => aes256_decrypt c k) = some m := by
  have hpadlen : (pkcs7_pad m).length % 16 = 0 := by
    unfold pkcs7_pad
    rw [List.length_append, List.length_replicate]
    omega
  have hpadB : ∀ b ∈ pkcs7_pad m, b < 256 := by
    intro b hb
    unfold pkcs7_pad at hb
    rcases List.mem_append.1 hb with h | h
    · exact hmB b h
    · have := List.eq_of_mem_replicate h
      omega
  obtain ⟨c, hc, hclen, hcB, hdec⟩ :=
    ecb_chunks_roundtrip k hk hkB (pkcs7_pad m).length (pkcs7_pad m) le_rfl hpadlen hpadB
  unfold aes256_encrypt
  rw [if_pos hk, hc, Option.some_bind]
  unfold aes256_decrypt
  rw [if_pos hk, hdec c.length (by omega)]
  exact unpad_pad m

/-- Witness for C3 at the empty message under the all-zero key. -/
theorem ecb_roundtrip_witness :
    (aes256_encrypt [] (List.replicate 32 0)).bind
      (fun c => aes256_decrypt c (List.replicate 32 0)) = some [] :=
  ecb_roundtrip [] (List.replicate 32 0) (by decide) (by decide) (by decide)

/-- C9: the ciphertext produced by `aes256_encrypt` has length
`ceil((len m + 1) / 16) * 16`, written here as `(len m + 1 + 15) / 16 * 16`. -/
theorem encrypt_length (m k : List Nat) (hmB : ∀ b ∈ m, b < 256)
    (hk : k.length = 32) (hkB : ∀ b ∈ k, b < 256) :
    ∃ c, aes256_encrypt m k = some c ∧ c.length = (m.length + 1 + 15) / 16 * 16 := by
  have hpadlen : (pkcs7_pad m).length % 16 = 0 := by
    unfold pkcs7_pad
    rw [List.length_append, List.length_replicate]
    omega
  have hpadB : ∀ b ∈ pkcs7_pad m, b < 256 := by
    intro b hb
    unfold pkcs7_pad at hb
    rcases List.mem_append.1 hb with h | h
    · exact hmB b h
    · have := List.eq_of_mem_replicate h
      omega
  obtain ⟨c, hc, hclen, -, -⟩ :=
    ecb_chunks_roundtrip k hk hkB (pkcs7_pad m).length (pkcs7_pad m) le_rfl hpadlen hpadB
  refine ⟨c, ?_, ?_⟩
  · unfold aes256_encrypt
    rw [if_pos hk, hc]
  · rw [hclen]
    unfold pkcs7_pad
    rw [List.length_append, List.length_replicate]
    omega

/-- Witness for C9 at the empty message: the ciphertext is one block. -/
theorem encrypt_length_witness :
    ∃ c, aes256_encrypt [] (List.replicate 32 0) = some c ∧
      c.length = (([] : List Nat).length + 1 + 15) / 16 * 16 :=
  encrypt_length [] (List.replicate 32 0) (by decide) (by decide) (by decide)

/-- C10: decrypting the empty byte sequence does not return a byte sequence:
all blocks (none) decrypt to the empty buffer and the final unpad reads the
last byte of an empty buffer — Python's `IndexError`, modelled as `none`. -/
theorem decrypt_empty_none (k : List Nat) (hk : k.length = 32) :
    aes256_decrypt [] k = none := by
  unfold aes256_decrypt
  rw [if_pos hk]
  rfl

/-- Witness for C10 under the all-zero 32-byte key. -/
theorem decrypt_empty_none_witness : aes256_decrypt [] (List.replicate 32 0) = none :=
  decrypt_empty_none (List.replicate 32 0) (by decide)

/-! ### Indexed characterization of the key schedule -/

lemma getD_append_last {α : Type} (l : List α) (x d : α) (i : Nat) (h : i = l.length) :
    (l ++ [x]).getD i d = x := by
  subst h
  rw [List.getD_eq_getElem _ _ (by simp)]
  exact List.getElem_concat_length l x l.length rfl _

lemma keyWords_getD_succ_init (key : List Nat) (n : Nat) (h8 : n < 8) :
    (keyWords key (n + 1)).getD n [] =
      [key.getD (4*n) 0, key.getD (4*n+1) 0, key.getD (4*n+2) 0, key.getD (4*n+3) 0] := by
  simp only [keyWords]
  rw [if_pos h8]
  exact getD_append_last _ _ _ _ (keyWords_length key n).symm

lemma keyWords_getD_succ_last (key : List Nat) (n : Nat) (h8 : 8 ≤ n) :
    (keyWords key (n + 1)).getD n [] = nextWord (keyWords key n) n := by
  simp only [keyWords]
  rw [if_neg (by omega)]
  exact getD_append_last _ _ _ _ (keyWords_length key n).symm

lemma keyWords_getD_mono (key : List Nat) (n i : Nat) (hi : i < n) :
    ∀ m, n ≤ m → (keyWords key m).getD i [] = (keyWords key n).getD i [] := by
  intro m
  induction m with
  | zero => intro h; omega
  | succ m ih =>
      intro h
      rcases Nat.lt_or_ge m n with hm | hm
      · have hnm : n = m + 1 := by omega
        subst hnm
        rfl
      · rw [← ih hm]
        simp only [keyWords]
        split <;>
          exact List.getD_append _ _ _ _ (by rw [keyWords_length]; omega)

lemma getD_range_map {α : Type} (f : Nat → α) (n i : Nat) (d : α) (h : i < n) :
    ((List.range n).map f).getD i d = f i := by
  rw [List.getD_eq_getElem?_getD, List.getElem?_map, List.getElem?_range h]
  rfl

/-- C6: the key schedule of a 32-byte key is 60 four-byte words: words 0–7 are
the key bytes in order; for `8 ≤ i < 60` word `i` is word `i-8` XORed with a
transform of word `i-1` — RotWord + SubWord + round constant number `i/8` when
`8 ∣ i`, SubWord alone when `i % 8 = 4`, the identity otherwise (this is
`scheduleTemp`); and the words are grouped four at a time into 15 round-key
matrices, word `4*g + j` forming column `j` of round key `g`. -/
theorem key_expansion_spec (key : List Nat) (hk : key.length = 32) :
    (keyWords key 60).length = 60 ∧
    (∀ i, i < 8 → (keyWords key 60).getD i [] =
      [key.getD (4*i) 0, key.getD (4*i+1) 0, key.getD (4*i+2) 0, key.getD (4*i+3) 0]) ∧
    (∀ i, 8 ≤ i → i < 60 →
      (keyWords key 60).getD i [] =
        wordXor ((keyWords key 60).getD (i - 8) [])
          (scheduleTemp i ((keyWords key 60).getD (i - 1) []))) ∧
    (∀ g, g < 15 → ∀ r, r < 4 → ∀ j, j < 4 →
      (((key_expansion key).getD g []).getD r []).getD j 0 =
        ((keyWords key 60).getD (4*g + j) []).getD r 0) := by
  refine ⟨keyWords_length key 60, ?_, ?_, ?_⟩
  · intro i hi
    rw [keyWords_getD_mono key (i + 1) i (by omega) 60 (by omega)]
    exact keyWords_getD_succ_init key i hi
  · intro i h8 h60
    rw [keyWords_getD_mono key (i + 1) i (by omega) 60 (by omega)]
    have hstep := keyWords_getD_succ_last key i h8
    rw [hstep]
    unfold nextWord
    rw [keyWords_getD_mono key i (i - 8) (by omega) 60 (by omega),
      keyWords_getD_mono key i (i - 1) (by omega) 60 (by omega)]
  · intro g hg r hr j hj
    rw [key_expansion_getD key g hg, getD_range_map _ _ _ _ hr, getD_range_map _ _ _ _ hj]

/-- Witness for C6 at the all-zero 32-byte key. -/
theorem key_expansion_spec_witness :
    (keyWords (List.replicate 32 0) 60).length = 60 ∧
    (∀ i, i < 8 → (keyWords (List.replicate 32 0) 60).getD i [] =
      [(List.replicate 32 0).getD (4*i) 0, (List.replicate 32 0).getD (4*i+1) 0,
       (List.replicate 32 0).getD (4*i+2) 0, (List.replicate 32 0).getD (4*i+3) 0]) ∧
    (∀ i, 8 ≤ i → i < 60 →
      (keyWords (List.replicate 32 0) 60).getD i [] =
        wordXor ((keyWords (List.replicate 32 0) 60).getD (i - 8) [])
          (scheduleTemp i ((keyWords (List.replicate 32 0) 60).getD (i - 1) []))) ∧
    (∀ g, g < 15 → ∀ r, r < 4 → ∀ j, j < 4 →
      (((key_expansion (List.replicate 32 0)).getD g []).getD r []).getD j 0 =
        ((keyWords (List.replicate 32 0) 60).getD (4*g + j) []).getD r 0) :=
  key_expansion_spec (List.replicate 32 0) (by decide)

end AES256
